import Mathlib

/-!
Verification of the PCard expense-report pipeline (clean_data.py, profiles.py,
clustering.py) against its specification.  The Python source is shallowly
embedded: dataframe column sequences become `List String`, rows become
structures, money amounts become `ℚ`, and each pipeline stage becomes a pure
function mirroring the corresponding source statements.
-/

namespace PCard

/-! ## Python string operations -/

/-- Does `pat` occur at the head of `l`?  (Helper for Python's `in` on strings.) -/
def leadMatch : List Char → List Char → Bool
  | [], _ => true
  | _ :: _, [] => false
  | a :: as, b :: bs => a == b && leadMatch as bs

/-- Does `pat` occur anywhere inside `l`?  (Python's `pat in s` substring test.) -/
def subMatch (pat : List Char) : List Char → Bool
  | [] => leadMatch pat []
  | b :: bs => leadMatch pat (b :: bs) || subMatch pat bs

/-- Python `pat in s` for strings. -/
def containsSub (s pat : String) : Bool :=
  subMatch pat.toList s.toList

/-- Python `s.lower()`. -/
def pyLower (s : String) : String :=
  ⟨s.toList.map Char.toLower⟩

/-- Character-level worker for Python `s.title()`: an alphabetic character is
uppercased when the previous character was not alphabetic, lowercased
otherwise. -/
def titleGo : Bool → List Char → List Char
  | _, [] => []
  | prevAlpha, c :: cs =>
      (if c.isAlpha then (if prevAlpha then c.toLower else c.toUpper) else c)
        :: titleGo c.isAlpha cs

/-- Python `s.title()`. -/
def pyTitle (s : String) : String :=
  ⟨titleGo false s.toList⟩

/-- Python `s.strip()`: remove leading and trailing whitespace. -/
def pyStrip (s : String) : String :=
  ⟨((s.toList.dropWhile Char.isWhitespace).reverse.dropWhile Char.isWhitespace).reverse⟩

/-! ## Canonical schema (clean_data.py, `self.column_names`) -/

/-- The 16 canonical column names, in canonical order. -/
def columnNames : List String :=
  ["Division", "Batch-Transaction ID", "Transaction Date", "Card Posting Dt",
   "Merchant Name", "Transaction Amt.", "Transaction Currency", "Original Amount",
   "Original Currency", "G/L Account", "G/L Account Description",
   "Cost Centre / WBS Element", "Cost Centre / WBS Element Description",
   "Merchant Type", "Merchant Type Description", "Purpose"]

/-! ## Fuzzy column matching (clean_data.py, `Dataset.__closest_match`) -/

/-- The score `len(set(name) & set(search_value))`: the number of distinct characters of
`name` that also occur in `searchValue`. -/
def matchScore (name searchValue : String) : ℕ :=
  ((name.toList.dedup).filter (fun c => searchValue.toList.contains c)).length

/-- The loop of `__closest_match`: running best count and best name, updated
only on a strictly larger score. -/
def closestMatchGo (searchValue : String) : List String → ℕ → String → String
  | [], _, best => best
  | n :: ns, cnt, best =>
      if cnt < matchScore n searchValue then
        closestMatchGo searchValue ns (matchScore n searchValue) n
      else
        closestMatchGo searchValue ns cnt best

/-- The matcher `Dataset.__closest_match(search_value, names)`: `match_count = 0`,
`best_match = names[0]`, then the scan. -/
def closest_match (searchValue : String) (names : List String) : String :=
  closestMatchGo searchValue names 0 (names.headD "")

/-! ## Reconciler column pipeline (clean_data.py, `Dataset.clean_data`) -/

/-- Drop any column whose label contains `unnamed` case-insensitively. -/
def dropUnnamed (cols : List String) : List String :=
  cols.filter (fun c => !(containsSub (pyLower c) "unnamed"))

/-- The exact rename table: `Long Text` and `Exp Type Desc` both rename to
`G/L Account Description`. -/
def exactRenameCol (c : String) : String :=
  if c = "Long Text" then "G/L Account Description"
  else if c = "Exp Type Desc" then "G/L Account Description"
  else c

/-- Apply the exact renames to every column label. -/
def exactRenames (cols : List String) : List String :=
  cols.map exactRenameCol

/-- The fuzzy-rename loop: iterate over the snapshot of the columns taken at
loop entry; for each label not already canonical, rename every current
occurrence of it to its closest match among `columnNames`. -/
def fuzzyRenames (cols : List String) : List String :=
  cols.foldl
    (fun cur column =>
      if column ∈ columnNames then cur
      else cur.map (fun c => if c = column then closest_match column columnNames else c))
    cols

/-- The columns after dropping unnamed columns and applying the exact and
fuzzy renames (the state just before the positional repair). -/
def renamedCols (cols : List String) : List String :=
  fuzzyRenames (exactRenames (dropUnnamed cols))

/-- The `Transaction Currency` positional repair: if the label is absent,
overwrite the label at position 6 of the current column sequence. -/
def repairTC (cols : List String) : List String :=
  if "Transaction Currency" ∈ cols then cols else cols.set 6 "Transaction Currency"

/-- Columns after the positional repair step. -/
def colsAfterRepair (cols : List String) : List String :=
  repairTC (renamedCols cols)

/-- The final `self.df = self.df[self.column_names]` subset/reorder: succeeds
with exactly the canonical columns in canonical order when all of them are
present, and fails (pandas `KeyError`, the spec's SchemaError) otherwise. -/
def reconcileColumns (cols : List String) : Option (List String) :=
  if columnNames.all (fun c => (colsAfterRepair cols).contains c) then
    some columnNames
  else
    none

/-! ## Row model and imputation (clean_data.py, `Dataset.clean_data`, rows) -/

/-- A row of a reconciled table: one `Option` value per canonical column
(`none` models a pandas `NaN`), plus the `Source` column appended during
cleaning.  Amount columns are rationals. -/
structure Row where
  division : Option String := none
  batchId : Option String := none
  transactionDate : Option String := none
  cardPostingDt : Option String := none
  merchantName : Option String := none
  transactionAmt : Option ℚ := none
  transactionCurrency : Option String := none
  originalAmount : Option ℚ := none
  originalCurrency : Option String := none
  glAccount : Option String := none
  glAccountDescription : Option String := none
  costCentre : Option String := none
  costCentreDescription : Option String := none
  merchantType : Option String := none
  merchantTypeDescription : Option String := none
  purpose : Option String := none
  source : Option String := none
  deriving DecidableEq, Repr

/-- Drop rows where both Division and Batch-Transaction ID are missing
(report subtotal rows). -/
def dropSubtotalRows (rows : List Row) : List Row :=
  rows.filter (fun r => !(r.division.isNone && r.batchId.isNone))

/-- Purpose: replace missing with the empty string. -/
def fillPurpose (r : Row) : Row :=
  if r.purpose.isNone then { r with purpose := some "" } else r

/-- Transaction Date: `fillna` with the same row's Card Posting Dt. -/
def fillTransactionDate (r : Row) : Row :=
  if r.transactionDate.isNone then { r with transactionDate := r.cardPostingDt } else r

/-- Division: replace missing with the literal `MISSING`. -/
def fillMissingDivision (r : Row) : Row :=
  if r.division.isNone then { r with division := some "MISSING" } else r

/-- Cost Centre / WBS Element: replace missing with the literal `MISSING`. -/
def fillMissingCostCentre (r : Row) : Row :=
  if r.costCentre.isNone then { r with costCentre := some "MISSING" } else r

/-- Cost Centre / WBS Element Description: replace missing with `MISSING`. -/
def fillMissingCostCentreDescription (r : Row) : Row :=
  if r.costCentreDescription.isNone then { r with costCentreDescription := some "MISSING" } else r

/-- Merchant Type: replace missing with the literal `MISSING`. -/
def fillMissingMerchantType (r : Row) : Row :=
  if r.merchantType.isNone then { r with merchantType := some "MISSING" } else r

/-- The `for column_name in [...]` loop filling the four columns with
`MISSING`, in source order. -/
def fillMissingLoop (r : Row) : Row :=
  fillMissingMerchantType (fillMissingCostCentreDescription
    (fillMissingCostCentre (fillMissingDivision r)))

/-- Source assignment, `self.df['Source'] = self.file_name`. -/
def assignSource (fileName : String) (r : Row) : Row :=
  { r with source := some fileName }

/-- Division normalization, `self.df['Division'].apply(lambda x: x.title().strip())`. -/
def titleCaseDivision (r : Row) : Row :=
  { r with division := r.division.map (fun x => pyStrip (pyTitle x)) }

/-- The row stage of `clean_data`, statement by statement in source order. -/
def cleanRows (fileName : String) (rows : List Row) : List Row :=
  (((((dropSubtotalRows rows).map fillPurpose).map fillTransactionDate).map
      fillMissingLoop).map (assignSource fileName)).map titleCaseDivision

/-- The per-row composite of the imputation steps applied to one surviving row. -/
def imputeRow (fileName : String) (r : Row) : Row :=
  titleCaseDivision (assignSource fileName
    (fillMissingLoop (fillTransactionDate (fillPurpose r))))

/-! ## Validation (clean_data.py, `Dataset.validate_data`) -/

/-- The two failure modes of `validate_data`: remaining `NaN`s (with the
per-column positive missing counts and the offending file) or a wrong column
count. -/
inductive ValidationError where
  | nanError (fileName : String) (nanSummary : List (String × ℕ))
  | columnCountError (fileName : String)
  deriving DecidableEq, Repr

/-- A cleaned table viewed as a plain grid: a column-label sequence and rows
of cells, `none` modelling `NaN`. -/
structure DataFrame where
  cols : List String
  rows : List (List (Option String))
  deriving DecidableEq, Repr

/-- Number of missing cells in column position `j` (`df.isna().sum()` per
column). -/
def nanCountAt (df : DataFrame) (j : ℕ) : ℕ :=
  (df.rows.filter (fun r => (r.getD j none).isNone)).length

/-- The per-column missing counts, labelled (`nan_counts`). -/
def nanCounts (df : DataFrame) : List (String × ℕ) :=
  (List.range df.cols.length).map (fun j => (df.cols.getD j "", nanCountAt df j))

/-- The total `total_nans = sum(nan_counts)`. -/
def totalNans (df : DataFrame) : ℕ :=
  ((nanCounts df).map Prod.snd).sum

/-- The report `nan_summary = nan_counts[nan_counts > 0]`. -/
def nanSummary (df : DataFrame) : List (String × ℕ) :=
  (nanCounts df).filter (fun p => 0 < p.2)

/-- The check `Dataset.validate_data`: assert no missing value remains, reporting the
summary and file name, then assert the column count is the 16 canonical
columns plus `Source`.  (The interactive `pdb.set_trace()` is a tooling
artifact, not behaviour.) -/
def validate_data (fileName : String) (df : DataFrame) : Except ValidationError Unit :=
  if totalNans df ≠ 0 then
    Except.error (ValidationError.nanError fileName (nanSummary df))
  else if df.cols.length ≠ columnNames.length + 1 then
    Except.error (ValidationError.columnCountError fileName)
  else
    Except.ok ()

/-- The `validate_data` method with its state passed explicitly: the method
only reads `self.df`, so the resulting state is the input table. -/
def validate_data_run (fileName : String) (df : DataFrame) :
    Except ValidationError Unit × DataFrame :=
  (validate_data fileName df, df)

/-! ## Merger (clean_data.py, `__main__`) -/

/-- A calendar date (the parsed Transaction Date). -/
structure Date where
  year : Int
  month : ℕ
  day : ℕ
  deriving DecidableEq, Repr

/-- A row of a validated per-file table, restricted to the fields the merge
and profiling stages read.  Validation guarantees no missing values, so the
fields are total here. -/
structure CleanRow where
  division : String
  batchId : String
  transactionDate : Date
  transactionAmt : ℚ
  merchantType : String
  source : String
  deriving DecidableEq, Repr

/-- A row of the unified table with the derived calendar columns.  (The
`Year-Month` string `YYYY-MM` and the quarterly period are represented by the
pairs `(year, month)` and `(year, quarter)`, in bijection with them.  The
four `<col>_code` companion columns are integer surrogates that add no new
row information and are not read by the profiler, so they are not modelled.) -/
structure URow where
  division : String
  batchId : String
  transactionDate : Date
  transactionAmt : ℚ
  merchantType : String
  source : String
  year : Int
  month : ℕ
  yearMonth : Int × ℕ
  quarter : Int × ℕ
  deriving DecidableEq, Repr

/-- Calendar quarter of a month number. -/
def quarterOf (m : ℕ) : ℕ :=
  (m + 2) / 3

/-- Derive Year, Month, Year-Month and Quarter from Transaction Date. -/
def deriveURow (r : CleanRow) : URow :=
  { division := r.division, batchId := r.batchId, transactionDate := r.transactionDate,
    transactionAmt := r.transactionAmt, merchantType := r.merchantType, source := r.source,
    year := r.transactionDate.year, month := r.transactionDate.month,
    yearMonth := (r.transactionDate.year, r.transactionDate.month),
    quarter := (r.transactionDate.year, quarterOf r.transactionDate.month) }

/-- Build the division rename dictionary, skipping pairs whose source equals
their target. -/
def divisionsMapDict (pairs : List (String × String)) : List (String × String) :=
  pairs.filter (fun p => p.1 ≠ p.2)

/-- The replacement `output_df['Division'].replace(divisions_map_dict)`: an exact-value
replacement; unmapped divisions pass through. -/
def applyDivisionsMap (dict : List (String × String)) (r : CleanRow) : CleanRow :=
  match dict.lookup r.division with
  | some d => { r with division := d }
  | none => r

/-- The merger: concatenate the per-file tables, apply the division mapping,
derive the calendar columns, and remove the 2010 rows. -/
def buildUnified (files : List (List CleanRow)) (pairs : List (String × String)) :
    List URow :=
  (((files.flatten).map (applyDivisionsMap (divisionsMapDict pairs))).map deriveURow).filter
    (fun r => r.year != 2010)

/-! ## Profiler (profiles.py, `Profile`) -/

/-- The slice `df[df['Division'] == division]`: the division's row subset. -/
def divisionRows (unified : List URow) (divisionName : String) : List URow :=
  unified.filter (fun r => r.division == divisionName)

/-- The list `df['Merchant Type'].value_counts().index.to_list()`: the distinct
merchant types of the unified table.  (`value_counts` orders them by
frequency; the order is irrelevant to every property proved here, so the
distinct values are taken in list order.) -/
def merchantsOf (unified : List URow) : List String :=
  (unified.map (fun r => r.merchantType)).dedup

/-- The groupby count for one merchant type: the number of the division's
rows of that type (`Batch-Transaction ID` is never null after validation, so
`count` counts rows). -/
def countType (rows : List URow) (m : String) : ℕ :=
  (rows.filter (fun r => r.merchantType == m)).length

/-- The merchant-type groups kept by `summary_df[summary_df['Count'] > 0]`:
`Merchant Type` is categorical, so the groupby enumerates every category of
the unified table and the filter keeps those with a positive count.  (The
descending-count sort order is irrelevant to the profile values.) -/
def merchantGroups (categories : List String) (rows : List URow) : List String :=
  categories.filter (fun m => 0 < countType rows m)

/-- The denominator `summary_df['Count'].sum()`: the total count over the kept groups. -/
def totalMerchantCount (categories : List String) (rows : List URow) : ℕ :=
  ((merchantGroups categories rows).map (countType rows)).sum

/-- Python dict assignment `d[k] = v` on an association list: overwrite the
binding if the key is present, append it otherwise. -/
def setEntry : List (String × ℚ) → String → ℚ → List (String × ℚ)
  | [], k, v => [(k, v)]
  | (k', v') :: rest, k, v =>
      if k' = k then (k, v) :: rest else (k', v') :: setEntry rest k v

/-- The pre-seeding loop of `Profile.__init__`: every merchant type of the
unified table gets a `Merchant_<type>_count` entry of `0`.  (The dict key is
the string `Merchant_<type>_count`; the map from type to key is injective, so
entries are indexed by the type itself.) -/
def seedMerchantEntries (merchants : List String) : List (String × ℚ) :=
  merchants.map (fun m => (m, (0 : ℚ)))

/-- The `Merchant_*_count` entries of a division's profile: the pre-seeded
zeros overwritten, for each kept group, with `Freq = Count / Count.sum()`
(`Profile.__get_merchant_dist`). -/
def merchantEntries (categories merchants : List String) (rows : List URow) :
    List (String × ℚ) :=
  (merchantGroups categories rows).foldl
    (fun acc m =>
      setEntry acc m ((countType rows m : ℚ) / (totalMerchantCount categories rows : ℚ)))
    (seedMerchantEntries merchants)

/-- The mean `np.average` of a list of rationals: the sum divided by the length. -/
def npAverage (xs : List ℚ) : ℚ :=
  xs.sum / (xs.length : ℚ)

/-- The entry `profile['Average Expenditure'] = np.average(df['Transaction Amt.'])` on
the division's row subset. -/
def profileAverageExpenditure (unified : List URow) (divisionName : String) : ℚ :=
  npAverage ((divisionRows unified divisionName).map (fun r => r.transactionAmt))

/-- The statistic `np.std` with its default `ddof=0`: the square root of the mean squared
deviation from the mean. -/
noncomputable def npStd (xs : List ℚ) : ℝ :=
  Real.sqrt ((xs.map (fun x => ((x : ℝ) - (npAverage xs : ℝ)) ^ 2)).sum / (xs.length : ℝ))

/-- The entry `profile['Stdev of Expenditure'] = np.std(df['Transaction Amt.'])` on the
division's row subset. -/
noncomputable def profileStdevExpenditure (unified : List URow) (divisionName : String) : ℝ :=
  npStd ((divisionRows unified divisionName).map (fun r => r.transactionAmt))

/-- Modelled from the spec: the arithmetic mean of a list of values. -/
def arithmeticMean (xs : List ℚ) : ℚ :=
  xs.sum / (xs.length : ℚ)

/-- Modelled from the spec: the population standard deviation of a list of
values. -/
noncomputable def populationStdDev (xs : List ℚ) : ℝ :=
  Real.sqrt ((xs.map (fun x => ((x : ℝ) - (arithmeticMean xs : ℝ)) ^ 2)).sum / (xs.length : ℝ))

/-! ## Clusterer (clustering.py, `__main__`) -/

/-- The scalar metric keys of a division's profile, in the order the
`Profile.__init__` helper calls insert them. -/
def profileScalarKeys : List String :=
  ["Average Expenditure", "Stdev of Expenditure", "Average Monthly Expenditure CV",
   "Average Quarterly Expenditure CV", "Total Cost Centres", "Count by Cost Centre Skew",
   "Count by Cost Centre Kurtosis", "Total G/L Accounts", "Count by G/L Account Skew",
   "Count by G/L Account Kurtosis", "Total Currencies", "Total Merchants",
   "Count by Merchant Skew", "Count by Merchant Kurtosis"]

/-- The key order of a division's profile dict: `Division` first, then the
pre-seeded `Merchant_<type>_count` keys, then the scalar metrics.
`pd.DataFrame` preserves this insertion order as the column order of the
profile matrix. -/
def profileKeys (merchants : List String) : List String :=
  ["Division"] ++ merchants.map (fun m => "Merchant_" ++ m ++ "_count") ++ profileScalarKeys

/-- The four named features of `test_cols`. -/
def clusterFeatureBase : List String :=
  ["Average Expenditure", "Stdev of Expenditure", "Average Monthly Expenditure CV",
   "Average Quarterly Expenditure CV"]

/-- The selection `test_cols`: the four named features plus every column of `cluster_data`
whose name contains the substring `Merchant`. -/
def testCols (cols : List String) : List String :=
  clusterFeatureBase ++ cols.filter (fun c => containsSub c "Merchant")

/-- The columns the clusterer is fitted on: `profile_df.drop('Division',
axis=1)` followed by the `test_cols` selection.  No scaling is applied to the
selected values before `clusterer.fit`. -/
def clusterCols (profileCols : List String) : List String :=
  testCols (profileCols.erase "Division")

/-- Modelled from the claim: a key of the shape `Merchant_<type>_count`. -/
def merchantCountKey (c : String) : Bool :=
  leadMatch "Merchant_".toList c.toList && leadMatch "_count".toList.reverse c.toList.reverse

/-- Modelled from the claim: the feature subset named by the specification,
the four named features plus the `Merchant_*_count` columns only. -/
def claimedClusterCols (profileCols : List String) : List String :=
  clusterFeatureBase ++ (profileCols.erase "Division").filter merchantCountKey

/-! ## Concrete inputs used as test fixtures -/

/-- A raw column sequence with an unnamed column before position 6 and no
`Transaction Currency` column. -/
def ex9 : List String :=
  ["Unnamed: 1", "Division", "Batch-Transaction ID", "Transaction Date", "Card Posting Dt",
   "Merchant Name", "Transaction Amt.", "Original Amount", "Original Currency", "G/L Account",
   "G/L Account Description", "Cost Centre / WBS Element",
   "Cost Centre / WBS Element Description", "Merchant Type", "Merchant Type Description",
   "Purpose"]

/-- A subtotal row: Division and Batch-Transaction ID both missing. -/
def rowBothMissing : Row :=
  { cardPostingDt := some "2012-03-05", transactionAmt := some 10 }

/-- A transaction row with a missing Division and a present
Batch-Transaction ID. -/
def rowDivMissing : Row :=
  { batchId := some "B-001", transactionDate := some "2012-03-05",
    cardPostingDt := some "2012-03-05", transactionAmt := some 25 }

/-- A cleaned table with one remaining missing value. -/
def dfWithNan : DataFrame :=
  { cols := ["Division", "Source"], rows := [[none, some "report.xls"]] }

/-- A small unified table with two divisions. -/
def exUnified : List URow :=
  [{ division := "A", batchId := "B1", transactionDate := ⟨2012, 3, 5⟩, transactionAmt := 10,
     merchantType := "Retail", source := "f.xls", year := 2012, month := 3,
     yearMonth := (2012, 3), quarter := (2012, 1) },
   { division := "A", batchId := "B2", transactionDate := ⟨2012, 4, 7⟩, transactionAmt := 30,
     merchantType := "Retail", source := "f.xls", year := 2012, month := 4,
     yearMonth := (2012, 4), quarter := (2012, 2) },
   { division := "A", batchId := "B3", transactionDate := ⟨2012, 4, 9⟩, transactionAmt := 14,
     merchantType := "Fuel", source := "f.xls", year := 2012, month := 4,
     yearMonth := (2012, 4), quarter := (2012, 2) },
   { division := "B", batchId := "B4", transactionDate := ⟨2013, 1, 2⟩, transactionAmt := 5,
     merchantType := "Travel", source := "g.xls", year := 2013, month := 1,
     yearMonth := (2013, 1), quarter := (2013, 1) }]

/-! ## Properties of the fuzzy matcher -/

theorem closestMatchGo_no_update (L : String) (ns : List String) :
    ∀ (cnt : ℕ) (best : String), (∀ n ∈ ns, matchScore n L ≤ cnt) →
      closestMatchGo L ns cnt best = best := by
  induction ns with
  | nil => intro cnt best _; rfl
  | cons n ns ih =>
      intro cnt best h
      have hn : ¬ cnt < matchScore n L := not_lt.mpr (h n (List.mem_cons_self n ns))
      simp only [closestMatchGo, if_neg hn]
      exact ih cnt best (fun m hm => h m (List.mem_cons_of_mem n hm))

theorem closestMatchGo_spec (L : String) (ns : List String) :
    ∀ (cnt : ℕ) (best : String), cnt ≤ matchScore best L →
      (closestMatchGo L ns cnt best = best ∨ closestMatchGo L ns cnt best ∈ ns)
    ∧ cnt ≤ matchScore (closestMatchGo L ns cnt best) L
    ∧ ∀ n ∈ ns, matchScore n L ≤ matchScore (closestMatchGo L ns cnt best) L := by
  induction ns with
  | nil =>
      intro cnt best h
      exact ⟨Or.inl rfl, h, by intro n hn; cases hn⟩
  | cons n ns ih =>
      intro cnt best h
      by_cases hlt : cnt < matchScore n L
      · simp only [closestMatchGo, if_pos hlt]
        obtain ⟨hmem, hcnt, hmax⟩ := ih (matchScore n L) n le_rfl
        refine ⟨?_, le_trans (le_of_lt hlt) hcnt, ?_⟩
        · rcases hmem with h' | h'
          · exact Or.inr (by rw [h']; exact List.mem_cons_self n ns)
          · exact Or.inr (List.mem_cons_of_mem n h')
        · intro m hm
          rcases List.mem_cons.mp hm with rfl | hm'
          · exact hcnt
          · exact hmax m hm'
      · simp only [closestMatchGo, if_neg hlt]
        obtain ⟨hmem, hcnt, hmax⟩ := ih cnt best h
        refine ⟨?_, hcnt, ?_⟩
        · rcases hmem with h' | h'
          · exact Or.inl h'
          · exact Or.inr (List.mem_cons_of_mem n h')
        · intro m hm
          rcases List.mem_cons.mp hm with rfl | hm'
          · exact le_trans (not_lt.mp hlt) hcnt
          · exact hmax m hm'

theorem closestMatchGo_first (L : String) (ns : List String) :
    ∀ (cnt : ℕ) (best C : String), C ∈ ns → cnt < matchScore C L →
      (∀ n ∈ ns, n ≠ C → matchScore n L < matchScore C L) →
      closestMatchGo L ns cnt best = C := by
  induction ns with
  | nil => intro _ _ _ hC; cases hC
  | cons n ns ih =>
      intro cnt best C hC hcnt hdom
      by_cases hn : n = C
      · subst hn
        simp only [closestMatchGo, if_pos hcnt]
        apply closestMatchGo_no_update
        intro m hm
        by_cases hm' : m = n
        · exact le_of_eq (by rw [hm'])
        · exact le_of_lt (hdom m (List.mem_cons_of_mem n hm) hm')
      · have hC' : C ∈ ns := by
          rcases List.mem_cons.mp hC with h' | h'
          · exact absurd h'.symm hn
          · exact h'
        have hdom' : ∀ m ∈ ns, m ≠ C → matchScore m L < matchScore C L :=
          fun m hm => hdom m (List.mem_cons_of_mem n hm)
        by_cases hlt : cnt < matchScore n L
        · simp only [closestMatchGo, if_pos hlt]
          exact ih (matchScore n L) n C hC'
            (hdom n (List.mem_cons_self n ns) hn) hdom'
        · simp only [closestMatchGo, if_neg hlt]
          exact ih cnt best C hC' hcnt hdom'

/-- Claim C3 (corrected): every non-canonical raw label is renamed to the
canonical name of maximal character-set overlap — the matcher always returns
a canonical name whose score no canonical name exceeds; if some canonical
name `C` shares at least one character with the label and every *other*
canonical name shares strictly fewer, the label renames to `C`; and if no
canonical name shares any character, the label renames to the first canonical
name, `Division`.  (The uncorrected claim allowed ties for the maximum, where
the first canonical name in canonical order wins instead.) -/
theorem claim3_theorem :
    (∀ L : String, closest_match L columnNames ∈ columnNames
        ∧ ∀ C ∈ columnNames, matchScore C L ≤ matchScore (closest_match L columnNames) L)
  ∧ (∀ L C : String, C ∈ columnNames → 1 ≤ matchScore C L →
      (∀ C' ∈ columnNames, C' ≠ C → matchScore C' L < matchScore C L) →
      closest_match L columnNames = C)
  ∧ (∀ L : String, (∀ C ∈ columnNames, matchScore C L = 0) →
      closest_match L columnNames = "Division") := by
  refine ⟨?_, ?_, ?_⟩
  · intro L
    obtain ⟨hmem, _, hmax⟩ :=
      closestMatchGo_spec L columnNames 0 (columnNames.headD "") (Nat.zero_le _)
    refine ⟨?_, hmax⟩
    rcases hmem with h' | h'
    · rw [closest_match, h']; exact List.mem_cons_self _ _
    · exact h'
  · intro L C hC hpos hdom
    exact closestMatchGo_first L columnNames 0 (columnNames.headD "") C hC hpos hdom
  · intro L hzero
    have : closestMatchGo L columnNames 0 (columnNames.headD "") = columnNames.headD "" :=
      closestMatchGo_no_update L columnNames 0 _ (fun n hn => le_of_eq (hzero n hn))
    rw [closest_match, this]; rfl

/-- Claim C3 witness: `Dvsn` shares 4 characters with `Division` and strictly
fewer with every other canonical name, so it renames to `Division`. -/
theorem claim3_witness : closest_match "Dvsn" columnNames = "Division" :=
  claim3_theorem.2.1 "Dvsn" "Division" (by decide) (by decide) (by decide)

/-- Claim C3 counterexample: the raw label `os` shares two characters with
`Purpose` and no canonical name shares more, yet it renames to `Division`
(an equal-scoring earlier name), not to `Purpose`. -/
theorem claim3_counterexample :
    "Purpose" ∈ columnNames
  ∧ ("os" : String) ∉ columnNames
  ∧ 1 ≤ matchScore "Purpose" "os"
  ∧ (∀ C' ∈ columnNames, matchScore C' "os" ≤ matchScore "Purpose" "os")
  ∧ closest_match "os" columnNames = "Division"
  ∧ ("Division" : String) ≠ "Purpose" := by decide

/-! ## Reconciler idempotence and the positional repair -/

/-- Claim C8: reconciling a table whose columns are already exactly the 16
canonical names in canonical order is a no-op on the column labelling and
ordering. -/
theorem claim8_theorem : reconcileColumns columnNames = some columnNames := by decide

/-- Claim C9 (corrected): the positional repair applies to position 6 of the
column sequence *after* the unnamed-column drop and the renames (which is the
raw position 6 only when no earlier column was dropped); positions other than
6 are untouched, and no overwrite happens when `Transaction Currency` is
already present. -/
theorem claim9_theorem (cols : List String) :
    ("Transaction Currency" ∈ renamedCols cols → colsAfterRepair cols = renamedCols cols)
  ∧ ("Transaction Currency" ∉ renamedCols cols →
      ∀ i : ℕ, i ≠ 6 → (colsAfterRepair cols)[i]? = (renamedCols cols)[i]?)
  ∧ ("Transaction Currency" ∉ renamedCols cols → 6 < (renamedCols cols).length →
      (colsAfterRepair cols)[6]? = some "Transaction Currency") := by
  refine ⟨?_, ?_, ?_⟩
  · intro h
    simp only [colsAfterRepair, repairTC, if_pos h]
  · intro h i hi
    simp only [colsAfterRepair, repairTC, if_neg h]
    exact List.getElem?_set_ne (fun hne => hi hne.symm)
  · intro h hlen
    simp only [colsAfterRepair, repairTC, if_neg h]
    exact List.getElem?_set_eq_of_lt _ hlen

/-- Claim C9 witness: on the fixture with a leading unnamed column the repair
fires and position 6 of the post-drop sequence becomes
`Transaction Currency`. -/
theorem claim9_witness : (colsAfterRepair ex9)[6]? = some "Transaction Currency" :=
  (claim9_theorem ex9).2.2 (by decide) (by decide)

/-- Claim C9 counterexample: on a table with an unnamed column before
position 6, the column at raw positional index 6 (`Transaction Amt.`) keeps
its label, and the column at raw index 7 (`Original Amount`) is the one
overwritten with `Transaction Currency` — the repair uses the post-drop index,
not the raw index. -/
theorem claim9_counterexample :
    ex9[6]? = some "Transaction Amt."
  ∧ "Transaction Currency" ∉ renamedCols ex9
  ∧ "Transaction Amt." ∈ colsAfterRepair ex9
  ∧ "Original Amount" ∉ colsAfterRepair ex9
  ∧ ex9[7]? = some "Original Amount" := by decide

/-! ## Imputation -/

theorem fillPurpose_division (r : Row) : (fillPurpose r).division = r.division := by
  unfold fillPurpose; split <;> rfl

theorem fillTransactionDate_division (r : Row) :
    (fillTransactionDate r).division = r.division := by
  unfold fillTransactionDate; split <;> rfl

theorem fillMissingCostCentre_division (r : Row) :
    (fillMissingCostCentre r).division = r.division := by
  unfold fillMissingCostCentre; split <;> rfl

theorem fillMissingCostCentreDescription_division (r : Row) :
    (fillMissingCostCentreDescription r).division = r.division := by
  unfold fillMissingCostCentreDescription; split <;> rfl

theorem fillMissingMerchantType_division (r : Row) :
    (fillMissingMerchantType r).division = r.division := by
  unfold fillMissingMerchantType; split <;> rfl

/-- Claim C2 (corrected): the imputer drops exactly the rows in which both
Division and Batch-Transaction ID are missing and imputes each survivor
column-wise; a surviving row with a missing Division receives the literal
`MISSING`, which the later title-case/strip pass turns into `Missing` — so
the Division value in the resulting normalized table is `Missing`, not
`MISSING`. -/
theorem claim2_theorem :
    (∀ (fileName : String) (rows : List Row),
      cleanRows fileName rows
        = (rows.filter (fun r => !(r.division.isNone && r.batchId.isNone))).map
            (imputeRow fileName))
  ∧ (∀ (fileName : String) (r : Row), r.division = none →
      (imputeRow fileName r).division = some "Missing") := by
  constructor
  · intro fileName rows
    simp only [cleanRows, dropSubtotalRows, List.map_map]
    rfl
  · intro fileName r h
    have h2 : (fillTransactionDate (fillPurpose r)).division = none := by
      rw [fillTransactionDate_division, fillPurpose_division, h]
    have h3 : (fillMissingDivision (fillTransactionDate (fillPurpose r))).division
        = some "MISSING" := by
      have hc : (fillTransactionDate (fillPurpose r)).division.isNone = true := by
        rw [h2]; rfl
      unfold fillMissingDivision
      rw [if_pos hc]
    have h4 : (fillMissingLoop (fillTransactionDate (fillPurpose r))).division
        = some "MISSING" := by
      unfold fillMissingLoop
      rw [fillMissingMerchantType_division, fillMissingCostCentreDescription_division,
        fillMissingCostCentre_division, h3]
    show ((assignSource fileName
        (fillMissingLoop (fillTransactionDate (fillPurpose r)))).division).map
          (fun x => pyStrip (pyTitle x)) = some "Missing"
    have h5 : (assignSource fileName
        (fillMissingLoop (fillTransactionDate (fillPurpose r)))).division
          = some "MISSING" := h4
    rw [h5]
    decide

/-- Claim C2 witness: a concrete surviving row with missing Division ends up
with Division `Missing`. -/
theorem claim2_witness : (imputeRow "report.xls" rowDivMissing).division = some "Missing" :=
  claim2_theorem.2 "report.xls" rowDivMissing rfl

/-- Claim C2 counterexample: of a subtotal row (both identifiers missing) and
a row with only Division missing, the first is dropped and the second ends up
with Division `Missing` — not the literal `MISSING` the claim states. -/
theorem claim2_counterexample :
    (cleanRows "report.xls" [rowBothMissing, rowDivMissing]).map (fun r => r.division)
      = [some "Missing"]
  ∧ (some "Missing" : Option String) ≠ some "MISSING" := by decide

/-! ## Validation -/

/-- Claim C4: validation succeeds exactly when no missing value remains and
the column count is 17 (the 16 canonical columns plus `Source`); on the
missing-value failure it reports the positive per-column missing counts and
the offending file. -/
theorem claim4_theorem (fileName : String) (df : DataFrame) :
    (validate_data fileName df = Except.ok () ↔ totalNans df = 0 ∧ df.cols.length = 17)
  ∧ (totalNans df ≠ 0 →
      validate_data fileName df
        = Except.error (ValidationError.nanError fileName (nanSummary df))) := by
  have hlen : columnNames.length + 1 = 17 := by decide
  constructor
  · unfold validate_data
    rw [hlen]
    by_cases h1 : totalNans df = 0
    · by_cases h2 : df.cols.length = 17 <;> simp [h1, h2]
    · simp [h1]
  · intro h
    unfold validate_data
    rw [if_pos h]

/-- Claim C4 witness: a table with one remaining missing value fails with the
missing-value report. -/
theorem claim4_witness :
    validate_data "report.xls" dfWithNan
      = Except.error (ValidationError.nanError "report.xls" (nanSummary dfWithNan)) :=
  ( claim4_theorem "report.xls" dfWithNan).2 (by decide)

/-- Claim C10: `validate_data` only reads the table — the state after the
call has the same column labels and the same rows, whether validation
succeeds or fails. -/
theorem claim10_theorem (fileName : String) (df : DataFrame) :
    (validate_data_run fileName df).2.cols = df.cols
  ∧ (validate_data_run fileName df).2.rows = df.rows :=
  ⟨rfl, rfl⟩

/-! ## Merger -/

/-- Claim C7: the unified table contains no row whose Year is 2010 — for
every input, filtering the merger's output by Year 2010 yields the empty
list, so everything the profiler reads satisfies the invariant. -/
theorem claim7_theorem (files : List (List CleanRow)) (pairs : List (String × String)) :
    (buildUnified files pairs).filter (fun r => r.year == 2010) = [] := by
  unfold buildUnified
  rw [List.filter_filter]
  rw [List.filter_eq_nil_iff]
  intro r _
  simp only [Bool.and_eq_true, beq_iff_eq, bne_iff_ne]
  rintro ⟨h1, h2⟩
  exact h2 h1

/-! ## Profiler: merchant frequency entries -/

theorem setEntry_map (g : String) (v : ℚ) (h : String → ℚ) :
    ∀ (ks : List String), ks.Nodup → g ∈ ks →
      setEntry (ks.map (fun k => (k, h k))) g v
        = ks.map (fun k => (k, if k = g then v else h k)) := by
  intro ks
  induction ks with
  | nil => intro _ hg; cases hg
  | cons k0 ks ih =>
      intro hnd hg
      simp only [List.map_cons, setEntry]
      by_cases hk : k0 = g
      · subst hk
        simp only [eq_self_iff_true, if_true]
        have hk0 : k0 ∉ ks := (List.nodup_cons.mp hnd).1
        refine congrArg _ ?_
        apply List.map_congr_left
        intro k hkks
        have hne : ¬ k = k0 := fun he => hk0 (he ▸ hkks)
        rw [if_neg hne]
      · rw [if_neg hk]
        have hg' : g ∈ ks := by
          rcases List.mem_cons.mp hg with h' | h'
          · exact absurd h'.symm hk
          · exact h'
        rw [ih (List.nodup_cons.mp hnd).2 hg', if_neg hk]

theorem foldl_setEntry (f : String → ℚ) (ks : List String) (hnd : ks.Nodup) :
    ∀ (gs : List String), (∀ g ∈ gs, g ∈ ks) → ∀ (h : String → ℚ),
      gs.foldl (fun acc g => setEntry acc g (f g)) (ks.map (fun k => (k, h k)))
        = ks.map (fun k => (k, if k ∈ gs then f k else h k)) := by
  intro gs
  induction gs with
  | nil =>
      intro _ h
      simp only [List.foldl_nil]
      apply List.map_congr_left
      intro k _
      simp
  | cons g gs ih =>
      intro hsub h
      simp only [List.foldl_cons]
      rw [setEntry_map g (f g) h ks hnd (hsub g (List.mem_cons_self g gs))]
      rw [ih (fun x hx => hsub x (List.mem_cons_of_mem g hx))
        (fun k => if k = g then f g else h k)]
      apply List.map_congr_left
      intro k _
      by_cases h1 : k ∈ gs
      · simp [h1, List.mem_cons]
      · by_cases h2 : k = g
        · subst h2; simp [h1, List.mem_cons]
        · simp [h1, h2, List.mem_cons]

theorem countType_eq_count (rows : List URow) (m : String) :
    countType rows m = (rows.map (fun r => r.merchantType)).count m := by
  rw [List.count_eq_countP, List.countP_map, countType, List.countP_eq_length_filter]
  rfl

theorem countType_pos_iff (rows : List URow) (m : String) :
    0 < countType rows m ↔ m ∈ rows.map (fun r => r.merchantType) := by
  rw [countType_eq_count]
  exact List.count_pos_iff

theorem mem_merchantGroups (categories : List String) (rows : List URow)
    (hsub : ∀ r ∈ rows, r.merchantType ∈ categories) (m : String) :
    m ∈ merchantGroups categories rows ↔ m ∈ rows.map (fun r => r.merchantType) := by
  unfold merchantGroups
  rw [List.mem_filter]
  constructor
  · rintro ⟨_, hpos⟩
    exact (countType_pos_iff rows m).mp (by simpa using hpos)
  · intro hm
    refine ⟨?_, by simpa using (countType_pos_iff rows m).mpr hm⟩
    obtain ⟨r, hr, rfl⟩ := List.mem_map.mp hm
    exact hsub r hr

theorem merchantGroups_nodup (categories : List String) (rows : List URow)
    (h : categories.Nodup) : (merchantGroups categories rows).Nodup :=
  h.filter _

theorem merchantGroups_perm (categories : List String) (rows : List URow)
    (hnd : categories.Nodup) (hsub : ∀ r ∈ rows, r.merchantType ∈ categories) :
    List.Perm (merchantGroups categories rows) ((rows.map (fun r => r.merchantType)).dedup) := by
  rw [List.perm_ext_iff_of_nodup (merchantGroups_nodup _ _ hnd) (List.nodup_dedup _)]
  intro m
  rw [List.mem_dedup]
  exact mem_merchantGroups categories rows hsub m

theorem totalMerchantCount_eq_length (categories : List String) (rows : List URow)
    (hnd : categories.Nodup) (hsub : ∀ r ∈ rows, r.merchantType ∈ categories) :
    totalMerchantCount categories rows = rows.length := by
  unfold totalMerchantCount
  rw [((merchantGroups_perm categories rows hnd hsub).map (countType rows)).sum_eq]
  rw [List.map_congr_left (fun m _ => countType_eq_count rows m)]
  rw [List.sum_map_count_dedup_eq_length, List.length_map]

theorem sum_map_ite_mem (l gs : List String) (g : String → ℚ) :
    (l.map (fun m => if m ∈ gs then g m else 0)).sum
      = ((l.filter (fun m => m ∈ gs)).map g).sum := by
  induction l with
  | nil => rfl
  | cons a l ih =>
      by_cases h : a ∈ gs
      · simp [List.filter_cons, h, ih]
      · simp [List.filter_cons, h, ih]

theorem sum_map_div_const (l : List String) (g : String → ℚ) (T : ℚ) :
    (l.map (fun m => g m / T)).sum = (l.map g).sum / T := by
  induction l with
  | nil => simp
  | cons a l ih => simp [ih, add_div]

/-- Claim C5: for a division with at least one transaction, the division's
`Merchant_*_count` profile entries are exactly one entry per merchant type
observed anywhere in the unified table, pre-seeded to 0 and overwritten with
count over total count for the types present in the division's rows, and
their values sum to exactly 1. -/
theorem claim5_theorem (u : List URow) (d : String) (h : divisionRows u d ≠ []) :
    merchantEntries (merchantsOf u) (merchantsOf u) (divisionRows u d)
      = (merchantsOf u).map (fun m =>
          (m, if m ∈ (divisionRows u d).map (fun r => r.merchantType)
              then (countType (divisionRows u d) m : ℚ) / ((divisionRows u d).length : ℚ)
              else 0))
  ∧ ((merchantEntries (merchantsOf u) (merchantsOf u) (divisionRows u d)).map
        Prod.snd).sum = 1 := by
  set rows := divisionRows u d with hrows
  set cats := merchantsOf u with hcats
  have hnd : cats.Nodup := List.nodup_dedup _
  have hsub : ∀ r ∈ rows, r.merchantType ∈ cats := by
    intro r hr
    have hru : r ∈ u := (List.mem_filter.mp (hrows ▸ hr)).1
    exact List.mem_dedup.mpr (List.mem_map.mpr ⟨r, hru, rfl⟩)
  have htot : totalMerchantCount cats rows = rows.length :=
    totalMerchantCount_eq_length cats rows hnd hsub
  have hgsub : ∀ g ∈ merchantGroups cats rows, g ∈ cats :=
    fun g hg => (List.mem_filter.mp hg).1
  have hfold : merchantEntries cats cats rows
      = cats.map (fun k => (k, if k ∈ merchantGroups cats rows
          then (countType rows k : ℚ) / (totalMerchantCount cats rows : ℚ) else 0)) :=
    foldl_setEntry _ cats hnd (merchantGroups cats rows) hgsub (fun _ => 0)
  have part1 : merchantEntries cats cats rows
      = cats.map (fun m =>
          (m, if m ∈ rows.map (fun r => r.merchantType)
              then (countType rows m : ℚ) / (rows.length : ℚ) else 0)) := by
    rw [hfold, htot]
    apply List.map_congr_left
    intro m _
    exact congrArg _ (if_congr (mem_merchantGroups cats rows hsub m) rfl rfl)
  refine ⟨part1, ?_⟩
  have hlen0 : rows.length ≠ 0 := fun h0 => h (List.length_eq_zero.mp h0)
  have hmap : (merchantEntries cats cats rows).map Prod.snd
      = cats.map (fun m =>
          if m ∈ rows.map (fun r => r.merchantType)
          then (countType rows m : ℚ) / (rows.length : ℚ) else 0) := by
    rw [part1, List.map_map]
    rfl
  rw [hmap, sum_map_ite_mem]
  have hpermf : List.Perm
      (cats.filter (fun m => m ∈ rows.map (fun r => r.merchantType)))
      (merchantGroups cats rows) := by
    rw [List.perm_ext_iff_of_nodup (hnd.filter _) (merchantGroups_nodup _ _ hnd)]
    intro m
    rw [mem_merchantGroups cats rows hsub m, List.mem_filter]
    simp only [decide_eq_true_eq]
    constructor
    · exact And.right
    · intro hm
      obtain ⟨r, hr, rfl⟩ := List.mem_map.mp hm
      exact ⟨hsub r hr, hm⟩
  rw [(hpermf.map _).sum_eq, sum_map_div_const]
  have hcast : ((merchantGroups cats rows).map
      (fun m => ((countType rows m : ℕ) : ℚ))).sum
        = ((totalMerchantCount cats rows : ℕ) : ℚ) := by
    unfold totalMerchantCount
    rw [Nat.cast_list_sum, List.map_map]
    rfl
  rw [hcast, htot]
  exact div_self (Nat.cast_ne_zero.mpr hlen0)

/-- Claim C5 witness: on the fixture table, division `A`'s merchant
frequencies sum to 1. -/
theorem claim5_witness :
    ((merchantEntries (merchantsOf exUnified) (merchantsOf exUnified)
        (divisionRows exUnified "A")).map Prod.snd).sum = 1 :=
  (claim5_theorem exUnified "A" (by decide)).2

/-! ## Profiler: expenditure mean and standard deviation -/

/-- Claim C6: the `Average Expenditure` of a division's profile is the
arithmetic mean of `Transaction Amt.` over exactly that division's rows of
the unified table, and `Stdev of Expenditure` is the population standard
deviation (`np.std` with its default `ddof=0`) over the same rows. -/
theorem claim6_theorem (u : List URow) (d : String) (_h : divisionRows u d ≠ []) :
    profileAverageExpenditure u d
      = arithmeticMean ((u.filter (fun r => r.division = d)).map (fun r => r.transactionAmt))
  ∧ profileStdevExpenditure u d
      = populationStdDev
          ((u.filter (fun r => r.division = d)).map (fun r => r.transactionAmt)) := by
  have hfil : divisionRows u d = u.filter (fun r => r.division = d) := by
    unfold divisionRows
    apply List.filter_congr
    intro r _
    rw [Bool.eq_iff_iff]
    simp [beq_iff_eq]
  constructor
  · unfold profileAverageExpenditure
    rw [hfil]
    rfl
  · unfold profileStdevExpenditure
    rw [hfil]
    rfl

/-- Claim C6 witness: on the fixture table, division `A`'s profile mean and
standard deviation equal the spec statistics over exactly its rows. -/
theorem claim6_witness :
    profileAverageExpenditure exUnified "A"
      = arithmeticMean ((exUnified.filter (fun r => r.division = "A")).map
          (fun r => r.transactionAmt))
  ∧ profileStdevExpenditure exUnified "A"
      = populationStdDev ((exUnified.filter (fun r => r.division = "A")).map
          (fun r => r.transactionAmt)) :=
  claim6_theorem exUnified "A" (by decide)

/-! ## Clusterer feature selection -/

theorem merchantKey_toList (m : String) :
    ("Merchant_" ++ m ++ "_count").toList
      = 'M' :: 'e' :: 'r' :: 'c' :: 'h' :: 'a' :: 'n' :: 't' :: '_'
          :: (m.toList ++ "_count".toList) := by
  show ("Merchant_" ++ m ++ "_count").data = _
  rw [String.data_append, String.data_append, List.append_assoc]
  rfl

theorem containsSub_merchantKey_true (m : String) :
    containsSub ("Merchant_" ++ m ++ "_count") "Merchant" = true := by
  unfold containsSub
  rw [merchantKey_toList]
  rfl

/-- Claim C1 (amended): the clusterer is fitted on the raw, unstandardized
values of the four named features plus *every* profile column whose name
contains the substring `Merchant` — that is, the `Merchant_*_count` columns
and additionally `Total Merchants`, `Count by Merchant Skew` and
`Count by Merchant Kurtosis`.  (The imported `StandardScaler` is never
used.) -/
theorem claim1_theorem (ms : List String) :
    clusterCols (profileKeys ms)
      = clusterFeatureBase ++ ms.map (fun m => "Merchant_" ++ m ++ "_count")
          ++ ["Total Merchants", "Count by Merchant Skew", "Count by Merchant Kurtosis"] := by
  unfold clusterCols testCols
  have h1 : (profileKeys ms).erase "Division"
      = ms.map (fun m => "Merchant_" ++ m ++ "_count") ++ profileScalarKeys := by
    show (("Division" :: (ms.map (fun m => "Merchant_" ++ m ++ "_count")
        ++ profileScalarKeys)).erase "Division") = _
    exact List.erase_cons_head _ _
  rw [h1, List.filter_append]
  have h2 : (ms.map (fun m => "Merchant_" ++ m ++ "_count")).filter
      (fun c => containsSub c "Merchant") = ms.map (fun m => "Merchant_" ++ m ++ "_count") := by
    apply List.filter_eq_self.mpr
    intro x hx
    obtain ⟨m, _, rfl⟩ := List.mem_map.mp hx
    exact containsSub_merchantKey_true m
  have h3 : profileScalarKeys.filter (fun c => containsSub c "Merchant")
      = ["Total Merchants", "Count by Merchant Skew", "Count by Merchant Kurtosis"] := by
    decide
  rw [h2, h3, List.append_assoc]

/-- Claim C1 counterexample: on a profile matrix with merchant type `Retail`,
the column set the clusterer is fitted on differs from the claimed subset —
it also contains `Total Merchants`, which is not a `Merchant_*_count`
column. -/
theorem claim1_counterexample :
    clusterCols (profileKeys ["Retail"]) ≠ claimedClusterCols (profileKeys ["Retail"])
  ∧ "Total Merchants" ∈ clusterCols (profileKeys ["Retail"])
  ∧ merchantCountKey "Total Merchants" = false := by decide

end PCard
